import Mathlib

/-!
# Verification of the brainrot_site distance/scroll core

Shallow embedding of the distance engine (`ScrollNavigator` /
`CircularNavigator`), the spawn-schedule generator (`DistanceGenerator`)
and the virtualized content stream (`InfiniteScroll`) of the
`hevonena/brainrot_site` repository, together with proofs of the
testable properties stated in its specification.

Conventions:
* JavaScript numbers are modelled by `ℚ` wherever the code only performs
  field arithmetic and comparisons on finite values; a dedicated `JSNum`
  type with `NaN`/`±∞` models IEEE special values for the
  error-handling claim about non-finite input deltas.
* JavaScript's `%` on integers is truncated remainder, i.e. `Int.tmod`.
* `Math.random()` is modelled by an explicit stream `rand : ℕ → ℚ` of
  draws (each draw in `[0, 1)`), consumed in call order.
-/

namespace Brainrot

/-! ## JavaScript integer index normalization

The stream code maps a virtual index to an array slot with
`((index % len) + len) % len`.  JavaScript's `%` is the truncated
remainder (`Int.tmod`), so we prove that for a positive modulus this
expression is the mathematical (Euclidean) remainder `Int.emod`. -/

/-- Truncated remainder of a negated dividend is the negated remainder,
mirroring how JavaScript's `%` takes the sign of the dividend. -/
theorem tmod_neg_left (a b : Int) : (-a).tmod b = -(a.tmod b) := by
  cases a with
  | ofNat m =>
    cases m with
    | zero => simp
    | succ k =>
      have h : -(Int.ofNat (k + 1)) = Int.negSucc k := rfl
      rw [h]
      cases b with
      | ofNat n => rfl
      | negSucc n => rfl
  | negSucc m =>
    have h : -(Int.negSucc m) = Int.ofNat (m + 1) := rfl
    rw [h]
    cases b with
    | ofNat n =>
      show Int.ofNat ((m + 1) % n) = -(-(Int.ofNat ((m + 1) % n)))
      rw [neg_neg]
    | negSucc n =>
      show Int.ofNat ((m + 1) % (n + 1)) = -(-(Int.ofNat ((m + 1) % (n + 1))))
      rw [neg_neg]

/-- For a positive modulus the truncated remainder is greater than `-n`. -/
theorem neg_lt_tmod (a : Int) {n : Int} (h : 0 < n) : -n < a.tmod n := by
  rcases le_or_lt 0 a with ha | ha
  · have h0 := Int.tmod_nonneg n ha
    omega
  · have hlt : (-a).tmod n < n := Int.tmod_lt_of_pos (-a) h
    rw [tmod_neg_left] at hlt
    omega

/-- The JavaScript normalization `((a % n) + n) % n` (with truncated `%`)
computes the Euclidean remainder when `0 < n`. -/
theorem jsNormalize_eq_emod (a : Int) {n : Int} (h : 0 < n) :
    ((a.tmod n) + n).tmod n = a % n := by
  have hlow : -n < a.tmod n := neg_lt_tmod a h
  have hnn : 0 ≤ a.tmod n + n := by omega
  rw [Int.tmod_eq_emod hnn (le_of_lt h)]
  rw [Int.add_emod_self]
  conv_rhs => rw [← Int.tmod_add_tdiv a n]
  rw [Int.add_mul_emod_self_left]

/-! ## DistanceGenerator (Spawn Schedule Generator)

Embeds the three static methods of `DistanceGenerator`
(`src/unnamed/part_001`, lines 16-98): `generateDistances`,
`generateNotificationWindows` and `getCardLifecycle`. -/

/-- The `options.mode` string argument of `generateDistances`: every
string other than `'random'` selects the fixed branch, so the two-valued
mode type is faithful. -/
inductive DistanceMode where
  | fixed : DistanceMode
  | random : DistanceMode
deriving DecidableEq, Repr

/-- The destructured options of `DistanceGenerator.generateDistances`. -/
structure DistanceOptions where
  mode : DistanceMode
  metersPerCard : ℚ
  randomMinMeters : ℚ
  randomMaxMeters : ℚ
deriving DecidableEq, Repr

/-- The fixed-mode loop of `generateDistances`:
`for (i = 0; i < cardCount; i++) distances.push(i * metersPerCard)`,
with `k` the remaining iterations and `i` the loop counter. -/
def fixedLoop (metersPerCard : ℚ) : ℕ → ℕ → List ℚ
  | 0, _ => []
  | k + 1, i => ((i : ℚ) * metersPerCard) :: fixedLoop metersPerCard k (i + 1)

/-- The random-mode loop of `generateDistances`: each iteration pushes
`currentDistance`, then advances it by
`randomMinMeters + Math.random() * (randomMaxMeters - randomMinMeters)`.
`rand i` is the `Math.random()` draw of iteration `i`. -/
def randomLoop (rand : ℕ → ℚ) (rmin rmax : ℚ) : ℕ → ℚ → ℕ → List ℚ
  | 0, _, _ => []
  | k + 1, currentDistance, i =>
      currentDistance ::
        randomLoop rand rmin rmax k
          (currentDistance + (rmin + rand i * (rmax - rmin))) (i + 1)

/-- Embeds `DistanceGenerator.generateDistances(cardCount, options)`.  The
`rand` stream models the successive `Math.random()` draws. -/
def generateDistances (cardCount : ℕ) (opts : DistanceOptions)
    (rand : ℕ → ℚ) : List ℚ :=
  match opts.mode with
  | .random => randomLoop rand opts.randomMinMeters opts.randomMaxMeters cardCount 0 0
  | .fixed => fixedLoop opts.metersPerCard cardCount 0

/-- One notification window, as produced by
`DistanceGenerator.generateNotificationWindows`. -/
structure NotificationWindow where
  startDistance : ℚ
  endDistance : ℚ
  nextCardIndex : ℕ
  nextCardDistance : ℚ
deriving DecidableEq, Repr

/-- Embeds `DistanceGenerator.generateNotificationWindows(cardDistances,
cardLifetimeMeters, marginBeforeNextCard)`: one candidate window per
adjacent pair `(i, i+1)`, kept only when `notificationEnd >
notificationStart`. -/
def generateNotificationWindows (cardDistances : List ℚ)
    (cardLifetimeMeters marginBeforeNextCard : ℚ) : List NotificationWindow :=
  (List.range (cardDistances.length - 1)).filterMap fun i =>
    match cardDistances.get? i, cardDistances.get? (i + 1) with
    | some ci, some cnext =>
        if cnext - marginBeforeNextCard > ci + cardLifetimeMeters then
          some ⟨ci + cardLifetimeMeters, cnext - marginBeforeNextCard, i + 1, cnext⟩
        else none
    | _, _ => none

/-- Embeds `DistanceGenerator.getCardLifecycle(cardIndex, cardDistances,
cardLifetimeMeters)`: `null` out of bounds, otherwise the pair
`(spawnDistance, disappearDistance)`. -/
def getCardLifecycle (cardIndex : ℤ) (cardDistances : List ℚ)
    (cardLifetimeMeters : ℚ) : Option (ℚ × ℚ) :=
  if cardIndex < 0 ∨ (cardDistances.length : ℤ) ≤ cardIndex then none
  else (cardDistances.get? cardIndex.toNat).map
    (fun d => (d, d + cardLifetimeMeters))

/-- A notification window is displayed while
`startDistance <= currentDistance < endDistance`
(`NotificationBanner.updateDistance`). -/
def windowActive (w : NotificationWindow) (x : ℚ) : Prop :=
  w.startDistance ≤ x ∧ x < w.endDistance

/-- A card is visible while
`spawnDistance <= currentDistance < spawnDistance + cardLifetimeMeters`
(`FlashcardOverlay.handleDistanceUpdate`). -/
def cardVisible (spawnDistance cardLifetimeMeters x : ℚ) : Prop :=
  spawnDistance ≤ x ∧ x < spawnDistance + cardLifetimeMeters

/-! ### Proofs about the fixed-mode schedule and card lifecycle -/

/-- Closed form of the fixed-mode loop, for any starting counter. -/
theorem fixedLoop_eq (m : ℚ) (k i : ℕ) :
    fixedLoop m k i = (List.range k).map (fun j => ((i + j : ℕ) : ℚ) * m) := by
  induction k generalizing i with
  | zero => rfl
  | succ k ih =>
    rw [fixedLoop, ih (i + 1), List.range_succ_eq_map]
    simp only [List.map_cons, List.map_map, Nat.add_zero, Function.comp_def]
    refine congrArg₂ List.cons rfl ?_
    refine List.map_congr_left (fun a _ => ?_)
    have h : i + 1 + a = i + a.succ := by omega
    rw [h]

/-- C5: for every count `n` and spacing `m`, `generateDistances` in fixed
mode returns exactly the sequence `[0, m, 2m, ..., (n-1)m]` of length `n`
(independently of the random stream and the random-mode bounds). -/
theorem generateDistances_fixed (n : ℕ) (m rmin rmax : ℚ) (rand : ℕ → ℚ) :
    generateDistances n ⟨.fixed, m, rmin, rmax⟩ rand
        = (List.range n).map (fun i : ℕ => (i : ℚ) * m)
  ∧ (generateDistances n ⟨.fixed, m, rmin, rmax⟩ rand).length = n := by
  have h := fixedLoop_eq m n 0
  simp only [Nat.zero_add] at h
  constructor
  · exact h
  · rw [show generateDistances n ⟨.fixed, m, rmin, rmax⟩ rand = fixedLoop m n 0 from rfl, h]
    simp

/-- C10: `getCardLifecycle` returns the pair
`(distances[index], distances[index] + lifetime)` when
`0 <= index < length`, and returns `null` exactly when the index is out
of the sequence's bounds. -/
theorem getCardLifecycle_spec (cardIndex : ℤ) (cardDistances : List ℚ) (L : ℚ) :
    (∀ _ : 0 ≤ cardIndex ∧ cardIndex < (cardDistances.length : ℤ),
        ∃ d, cardDistances.get? cardIndex.toNat = some d ∧
          getCardLifecycle cardIndex cardDistances L = some (d, d + L))
  ∧ (getCardLifecycle cardIndex cardDistances L = none ↔
      (cardIndex < 0 ∨ (cardDistances.length : ℤ) ≤ cardIndex)) := by
  have hmain : ∀ _ : 0 ≤ cardIndex ∧ cardIndex < (cardDistances.length : ℤ),
      ∃ d, cardDistances.get? cardIndex.toNat = some d ∧
        getCardLifecycle cardIndex cardDistances L = some (d, d + L) := by
    rintro ⟨h0, h1⟩
    have hlt : cardIndex.toNat < cardDistances.length := by omega
    refine ⟨cardDistances.get ⟨cardIndex.toNat, hlt⟩, List.get?_eq_get hlt, ?_⟩
    rw [getCardLifecycle, if_neg (by omega), List.get?_eq_get hlt]
    rfl
  refine ⟨hmain, ?_, ?_⟩
  · intro hnone
    by_contra hcontra
    push_neg at hcontra
    obtain ⟨d, _, hsome⟩ := hmain ⟨hcontra.1, hcontra.2⟩
    rw [hnone] at hsome
    exact Option.noConfusion hsome
  · intro hor
    rw [getCardLifecycle, if_pos hor]

/-- Witness for C10 at a concrete schedule: index 1 of `[0, 10, 20]` with
lifetime 1 yields the pair `(10, 11)`; index 5 is out of bounds. -/
theorem getCardLifecycle_spec_witness :
    getCardLifecycle 1 [0, 10, 20] 1 = some (10, 11)
  ∧ getCardLifecycle 5 [0, 10, 20] 1 = none := by
  constructor
  · obtain ⟨d, hd, hres⟩ :=
      (getCardLifecycle_spec 1 [0, 10, 20] 1).1 (by constructor <;> norm_num)
    have hd10 : d = 10 := by simpa using hd.symm
    rw [hres, hd10]
    norm_num
  · exact (getCardLifecycle_spec 5 [0, 10, 20] 1).2.mpr (by right; norm_num)

/-! ### Proofs about the random-mode schedule -/

/-- The random-mode loop produces one entry per iteration. -/
theorem randomLoop_length (rand : ℕ → ℚ) (rmin rmax : ℚ) (k : ℕ) (cur : ℚ) (i : ℕ) :
    (randomLoop rand rmin rmax k cur i).length = k := by
  induction k generalizing cur i with
  | zero => rfl
  | succ k ih => rw [randomLoop]; simp [ih]

/-- The first entry pushed by the random-mode loop is the incoming
`currentDistance`. -/
theorem randomLoop_head? (rand : ℕ → ℚ) (rmin rmax : ℚ) (k : ℕ) (cur : ℚ) (i : ℕ)
    (h : 0 < k) : (randomLoop rand rmin rmax k cur i).head? = some cur := by
  cases k with
  | zero => omega
  | succ k => rfl

/-- Every consecutive gap produced by the random-mode loop lies in
`[rmin, rmax]` whenever `rmin ≤ rmax` and the random draws lie in `[0, 1)`. -/
theorem randomLoop_chain' (rand : ℕ → ℚ) (rmin rmax : ℚ)
    (hminmax : rmin ≤ rmax) (hrand : ∀ j, 0 ≤ rand j ∧ rand j < 1)
    (k : ℕ) (cur : ℚ) (i : ℕ) :
    List.Chain' (fun a b => rmin ≤ b - a ∧ b - a ≤ rmax)
      (randomLoop rand rmin rmax k cur i) := by
  induction k generalizing cur i with
  | zero => exact List.chain'_nil
  | succ k ih =>
    rw [randomLoop]
    refine List.chain'_cons'.mpr ⟨?_, ih _ _⟩
    intro b hb
    cases k with
    | zero => simp [randomLoop] at hb
    | succ k' =>
      rw [randomLoop_head? rand rmin rmax _ _ _ (Nat.succ_pos _)] at hb
      simp only [Option.mem_def, Option.some_inj] at hb
      subst hb
      have h1 := (hrand i).1
      have h2 := (hrand i).2
      have hd : (0 : ℚ) ≤ rmax - rmin := by linarith
      constructor
      · have := mul_nonneg h1 hd
        linarith
      · have := mul_le_of_le_one_left hd (le_of_lt h2)
        linarith

/-- Counterexample to C6 as stated: with `min = max = -1` (which satisfies
`min ≤ max`) and the random stream constantly `0`, the random-mode
schedule for two cards is `[0, -1]`, which is not non-decreasing. -/
theorem generateDistances_random_not_monotone :
    ((-1 : ℚ) ≤ -1)
  ∧ generateDistances 2 ⟨.random, 10, -1, -1⟩ (fun _ => 0) = [0, -1]
  ∧ ¬ List.Sorted (· ≤ ·) (generateDistances 2 ⟨.random, 10, -1, -1⟩ (fun _ => 0)) := by
  have heq : generateDistances 2 ⟨.random, 10, -1, -1⟩ (fun _ => 0) = [0, -1] := by
    show randomLoop (fun _ => 0) (-1) (-1) 2 0 0 = [0, -1]
    rw [randomLoop, randomLoop, randomLoop]
    norm_num
  refine ⟨le_refl _, heq, ?_⟩
  rw [heq]
  intro hsort
  have h := List.rel_of_sorted_cons hsort (-1) (by simp)
  norm_num at h

/-- C6 (amended): for `0 ≤ min ≤ max` and any random stream drawing in
`[0, 1)`, the random-mode schedule has length `n`, starts at `0`, has
every consecutive gap in `[min, max]`, and is non-decreasing. -/
theorem generateDistances_random_spec (n : ℕ) (m rmin rmax : ℚ) (rand : ℕ → ℚ)
    (hmin : 0 ≤ rmin) (hminmax : rmin ≤ rmax)
    (hrand : ∀ j, 0 ≤ rand j ∧ rand j < 1) :
    (generateDistances n ⟨.random, m, rmin, rmax⟩ rand).length = n
  ∧ (0 < n → (generateDistances n ⟨.random, m, rmin, rmax⟩ rand).head? = some 0)
  ∧ List.Chain' (fun a b => rmin ≤ b - a ∧ b - a ≤ rmax)
      (generateDistances n ⟨.random, m, rmin, rmax⟩ rand)
  ∧ List.Sorted (· ≤ ·) (generateDistances n ⟨.random, m, rmin, rmax⟩ rand) := by
  have hshow : generateDistances n ⟨.random, m, rmin, rmax⟩ rand
      = randomLoop rand rmin rmax n 0 0 := rfl
  rw [hshow]
  have hchain := randomLoop_chain' rand rmin rmax hminmax hrand n 0 0
  refine ⟨randomLoop_length rand rmin rmax n 0 0,
    fun hn => randomLoop_head? rand rmin rmax n 0 0 hn, hchain, ?_⟩
  rw [List.Sorted, ← List.chain'_iff_pairwise]
  exact hchain.imp (fun a b hab => by linarith [hab.1])

/-- Witness for C6 (amended) at `n = 3`, `min = 2`, `max = 8` and the
constant random stream `1/2`: the schedule is `[0, 5, 10]`. -/
theorem generateDistances_random_spec_witness :
    (generateDistances 3 ⟨.random, 10, 2, 8⟩ (fun _ => 1/2)).length = 3
  ∧ List.Sorted (· ≤ ·) (generateDistances 3 ⟨.random, 10, 2, 8⟩ (fun _ => 1/2)) := by
  have h := generateDistances_random_spec 3 10 2 8 (fun _ => 1/2)
    (by norm_num) (by norm_num) (fun j => by norm_num)
  exact ⟨h.1, h.2.2.2⟩

/-! ### Proofs about the notification windows -/

/-- A window is returned by `generateNotificationWindows` exactly when it
is the candidate of some adjacent pair `(i, i+1)` whose end exceeds its
start. -/
theorem mem_generateNotificationWindows_iff {d : List ℚ} {L m : ℚ}
    {w : NotificationWindow} :
    w ∈ generateNotificationWindows d L m ↔
      ∃ (i : ℕ) (ci cnext : ℚ),
        d.get? i = some ci ∧ d.get? (i + 1) = some cnext ∧
        ci + L < cnext - m ∧
        w = ⟨ci + L, cnext - m, i + 1, cnext⟩ := by
  rw [generateNotificationWindows, List.mem_filterMap]
  constructor
  · rintro ⟨i, hi, hf⟩
    rw [List.mem_range] at hi
    split at hf
    · rename_i ci cnext hci hcnext
      split at hf
      · rename_i hlt
        exact ⟨i, ci, cnext, hci, hcnext, hlt, (Option.some_inj.mp hf).symm⟩
      · exact Option.noConfusion hf
    · exact Option.noConfusion hf
  · rintro ⟨i, ci, cnext, hci, hcnext, hlt, rfl⟩
    obtain ⟨hi1, -⟩ := List.get?_eq_some.mp hcnext
    refine ⟨i, List.mem_range.mpr (by omega), ?_⟩
    rw [hci, hcnext]
    show (if cnext - m > ci + L then
        some (⟨ci + L, cnext - m, i + 1, cnext⟩ : NotificationWindow) else none)
      = some ⟨ci + L, cnext - m, i + 1, cnext⟩
    rw [if_pos hlt]

/-- Entries of a non-decreasing list are monotone in the index. -/
theorem sorted_get?_mono {d : List ℚ} (hd : List.Sorted (· ≤ ·) d)
    {i j : ℕ} {ci cj : ℚ} (hij : i ≤ j)
    (hci : d.get? i = some ci) (hcj : d.get? j = some cj) : ci ≤ cj := by
  obtain ⟨hi, hgi⟩ := List.get?_eq_some.mp hci
  obtain ⟨hj, hgj⟩ := List.get?_eq_some.mp hcj
  rcases lt_or_eq_of_le hij with h | h
  · have := List.pairwise_iff_get.mp hd ⟨i, hi⟩ ⟨j, hj⟩ h
    rw [hgi, hgj] at this
    exact this
  · subst h
    rw [hci] at hcj
    rw [Option.some_inj.mp hcj]

/-- C4: for a non-decreasing distance sequence, nonnegative lifetime and
nonnegative margin, `generateNotificationWindows` yields, for each
adjacent pair `(i, i+1)`, the window
`(distances[i] + lifetime, distances[i+1] - margin)` exactly when its
end exceeds its start; no returned window is simultaneously active with
any card-visible interval, nor with any other returned window (activity
being the half-open ranges the consumers test). -/
theorem generateNotificationWindows_spec (d : List ℚ) (L m : ℚ)
    (hd : List.Sorted (· ≤ ·) d) (hL : 0 ≤ L) (hm : 0 ≤ m) :
    (∀ (i : ℕ) (ci cnext : ℚ), d.get? i = some ci → d.get? (i + 1) = some cnext →
        ((⟨ci + L, cnext - m, i + 1, cnext⟩ : NotificationWindow)
            ∈ generateNotificationWindows d L m ↔ ci + L < cnext - m))
  ∧ (∀ w ∈ generateNotificationWindows d L m, ∀ (j : ℕ) (cj : ℚ),
        d.get? j = some cj → ∀ x : ℚ, ¬(windowActive w x ∧ cardVisible cj L x))
  ∧ (∀ w ∈ generateNotificationWindows d L m,
        ∀ w' ∈ generateNotificationWindows d L m,
        w ≠ w' → ∀ x : ℚ, ¬(windowActive w x ∧ windowActive w' x)) := by
  refine ⟨?_, ?_, ?_⟩
  · intro i ci cnext hci hcnext
    constructor
    · intro hw
      obtain ⟨i', ci', cnext', hci', hcnext', hlt', heq⟩ :=
        mem_generateNotificationWindows_iff.mp hw
      injection heq with h1 h2 h3 h4
      have hii : i = i' := by omega
      subst hii
      rw [hci] at hci'
      rw [hcnext] at hcnext'
      rw [Option.some_inj.mp hci', Option.some_inj.mp hcnext']
      exact hlt'
    · intro hlt
      exact mem_generateNotificationWindows_iff.mpr
        ⟨i, ci, cnext, hci, hcnext, hlt, rfl⟩
  · intro w hw j cj hcj x hboth
    obtain ⟨i, ci, cnext, hci, hcnext, hlt, rfl⟩ :=
      mem_generateNotificationWindows_iff.mp hw
    simp only [windowActive, cardVisible] at hboth
    obtain ⟨⟨hx1, hx2⟩, hx3, hx4⟩ := hboth
    rcases le_or_lt j i with hji | hij
    · have hle : cj ≤ ci := sorted_get?_mono hd hji hcj hci
      linarith
    · have hle : cnext ≤ cj := sorted_get?_mono hd (by omega) hcnext hcj
      linarith
  · intro w hw w' hw' hne x hboth
    obtain ⟨i, ci, cnext, hci, hcnext, hlt, rfl⟩ :=
      mem_generateNotificationWindows_iff.mp hw
    obtain ⟨i', ci', cnext', hci', hcnext', hlt', rfl⟩ :=
      mem_generateNotificationWindows_iff.mp hw'
    simp only [windowActive] at hboth
    obtain ⟨⟨hx1, hx2⟩, hx3, hx4⟩ := hboth
    rcases lt_trichotomy i i' with hlt2 | heq | hgt
    · have hle : cnext ≤ ci' := sorted_get?_mono hd (by omega) hcnext hci'
      linarith
    · subst heq
      rw [hci] at hci'
      rw [hcnext] at hcnext'
      exact hne (by rw [Option.some_inj.mp hci', Option.some_inj.mp hcnext'])
    · have hle : cnext' ≤ ci := sorted_get?_mono hd (by omega) hcnext' hci
      linarith

/-- Witness for C4 at the spec's scenario `metersPerCard = 10`,
`lifetime = 1`, `margin = 0`, distances `[0, 10, 20]`: the window of the
first pair is `(1, 10)` and it is returned. -/
theorem generateNotificationWindows_spec_witness :
    (⟨1, 10, 1, 10⟩ : NotificationWindow)
        ∈ generateNotificationWindows [0, 10, 20] 1 0
  ∧ generateNotificationWindows [0, 10, 20] 1 0
      = [⟨1, 10, 1, 10⟩, ⟨11, 20, 2, 20⟩] := by
  constructor
  · have h := (generateNotificationWindows_spec [0, 10, 20] 1 0
      (by norm_num [List.sorted_cons]) (by norm_num) (by norm_num)).1
      0 0 10 rfl rfl
    have h2 : ((0 : ℚ) + 1 < 10 - 0) := by norm_num
    have h3 := h.mpr h2
    simpa using h3
  · have h0 : ([0, 10, 20] : List ℚ).length - 1 = 2 := rfl
    rw [generateNotificationWindows, h0, show List.range 2 = [0, 1] from rfl]
    norm_num [List.filterMap_cons]

/-! ## Distance engine (`ScrollNavigator` / `CircularNavigator`)

The accumulating state of the engine.  `value` is the step accumulator
(`this.value`), `totalDistance` the net signed distance and
`absoluteDistance` the total travelled distance.  The same accumulation
(`_updateDistance` plus `this.value += delta`) is shared by the wheel
handler, the touch-move handler and the momentum frame loop of
`ScrollNavigator`, and mirrors `CircularNavigator.handleMove`
lines 121-128. -/

structure NavState where
  value : ℚ
  totalDistance : ℚ
  absoluteDistance : ℚ
deriving DecidableEq, Repr

/-- Fresh engine: all accumulators zero. -/
def initialNavState : NavState := ⟨0, 0, 0⟩

/-- Embeds `ScrollNavigator._updateDistance(scrollDelta)`. -/
def updateDistance (s : NavState) (scrollDelta : ℚ) : NavState :=
  { s with totalDistance := s.totalDistance + scrollDelta,
           absoluteDistance := s.absoluteDistance + |scrollDelta| }

/-- Embeds `ScrollNavigator._pixelsToSteps(pixels)`.  In the source the factor
is `stepsPerRotation / (2 * Math.PI * 100)`; we keep the configured
linear scale abstract as `stepScale`, since every claim is independent
of its concrete (irrational) value. -/
def pixelsToSteps (stepScale : ℚ) (pixels : ℚ) : ℚ := pixels * stepScale

/-- One accumulation step of the engine: distance tracking followed by
`this.value += delta`, as performed identically by `_handleWheel`,
`_handleTouchMove` (once past its dead-zone guard) and `_momentumStep`. -/
def moveStep (stepScale : ℚ) (s : NavState) (scrollDelta : ℚ) : NavState :=
  let s1 := updateDistance s scrollDelta
  { s1 with value := s1.value + pixelsToSteps stepScale scrollDelta }

/-- A sequence of accumulation steps, in delivery order. -/
def runMoves (stepScale : ℚ) (s : NavState) (deltas : List ℚ) : NavState :=
  deltas.foldl (moveStep stepScale) s

/-- The payload of the `rotate` event emitted by the engine
(`_handleWheel` and the analogous emissions of the touch and momentum
paths), with the nested `distance` object flattened into `dist*`
fields. -/
structure RotateEvent where
  delta : ℚ
  rotationDelta : ℚ
  value : ℚ
  angle : ℚ
  direction : String
  distTotal : ℚ
  distAbsolute : ℚ
  distDelta : ℚ
  distDeltaAbs : ℚ
  distRadius : ℚ
deriving DecidableEq, Repr

/-- Embeds `ScrollNavigator._handleWheel(event)` restricted to its state change
and emitted `rotate` payload: `scrollDelta = event.deltaY`. -/
def handleWheel (stepScale stepsPerRotation : ℚ) (s : NavState) (deltaY : ℚ) :
    NavState × RotateEvent :=
  let scrollDelta := deltaY
  let delta := pixelsToSteps stepScale scrollDelta
  let s1 := updateDistance s scrollDelta
  let s2 := { s1 with value := s1.value + delta }
  (s2,
   { delta := delta
     rotationDelta := scrollDelta / stepsPerRotation
     value := s2.value
     angle := 0
     direction := if scrollDelta > 0 then "clockwise" else "counterclockwise"
     distTotal := s2.totalDistance
     distAbsolute := s2.absoluteDistance
     distDelta := scrollDelta
     distDeltaAbs := |scrollDelta|
     distRadius := 0 })

/-! ### Proofs about the accumulation invariants -/

/-- After any sequence of accumulation steps, `absoluteDistance` has
grown by exactly the sum of the step magnitudes. -/
theorem runMoves_absoluteDistance (stepScale : ℚ) (s : NavState) (ds : List ℚ) :
    (runMoves stepScale s ds).absoluteDistance
      = s.absoluteDistance + (ds.map (fun d => |d|)).sum := by
  induction ds generalizing s with
  | nil => simp [runMoves]
  | cons d ds ih =>
    rw [runMoves, List.foldl_cons, ← runMoves, ih]
    simp [moveStep, updateDistance]
    ring

/-- Invariant `|totalDistance| ≤ absoluteDistance` is preserved by any sequence of
accumulation steps. -/
theorem runMoves_total_le (stepScale : ℚ) (s : NavState) (ds : List ℚ)
    (h : |s.totalDistance| ≤ s.absoluteDistance) :
    |(runMoves stepScale s ds).totalDistance|
      ≤ (runMoves stepScale s ds).absoluteDistance := by
  induction ds generalizing s with
  | nil => exact h
  | cons d ds ih =>
    rw [runMoves, List.foldl_cons, ← runMoves]
    refine ih _ ?_
    show |s.totalDistance + d| ≤ s.absoluteDistance + |d|
    calc |s.totalDistance + d| ≤ |s.totalDistance| + |d| := abs_add _ _
    _ ≤ s.absoluteDistance + |d| := by linarith

/-- C1: over any sequence of accumulation steps from a fresh engine,
`absoluteDistance` equals the sum of `|deltaDistance|` over all steps,
is monotone non-decreasing under further steps, and
`|totalDistance| ≤ absoluteDistance` holds after every step. -/
theorem moveAccumulationInvariants (stepScale : ℚ) (deltas extra : List ℚ) :
    (runMoves stepScale initialNavState deltas).absoluteDistance
        = (deltas.map (fun d => |d|)).sum
  ∧ (runMoves stepScale initialNavState deltas).absoluteDistance
        ≤ (runMoves stepScale initialNavState (deltas ++ extra)).absoluteDistance
  ∧ |(runMoves stepScale initialNavState deltas).totalDistance|
        ≤ (runMoves stepScale initialNavState deltas).absoluteDistance := by
  have habs : ∀ l : List ℚ, (runMoves stepScale initialNavState l).absoluteDistance
      = (l.map (fun d => |d|)).sum := by
    intro l
    rw [runMoves_absoluteDistance]
    show (0 : ℚ) + _ = _
    rw [zero_add]
  refine ⟨habs deltas, ?_, ?_⟩
  · rw [habs deltas, habs (deltas ++ extra), List.map_append, List.sum_append]
    have hnn : (0 : ℚ) ≤ (extra.map (fun d => |d|)).sum := by
      refine List.sum_nonneg ?_
      intro a ha
      obtain ⟨b, -, rfl⟩ := List.mem_map.mp ha
      exact abs_nonneg b
    linarith
  · refine runMoves_total_le stepScale initialNavState deltas ?_
    show |(0 : ℚ)| ≤ (0 : ℚ)
    simp

/-! ### The wheel scenario (claim C3) -/

/-- Counterexample to C3 as stated: on a fresh engine a wheel event with
`deltaY = 120` emits `direction = "clockwise"`, not `"forward"` (the
engine's direction vocabulary is `clockwise`/`counterclockwise`). -/
theorem wheelDirection_counterexample :
    (handleWheel 1 150 initialNavState 120).2.direction = "clockwise"
  ∧ (handleWheel 1 150 initialNavState 120).2.direction ≠ "forward" := by
  constructor
  · show (if (120 : ℚ) > 0 then "clockwise" else "counterclockwise") = "clockwise"
    norm_num
  · show (if (120 : ℚ) > 0 then "clockwise" else "counterclockwise") ≠ "forward"
    rw [if_pos (by norm_num : (120 : ℚ) > 0)]
    decide

/-- C3 (amended): on a fresh engine, a wheel event with `deltaY = 120`
increases the step accumulator by exactly `120 * stepScale` — a fixed,
reproducible amount determined only by the configured scale — and the
emitted `rotate` event reports the forward direction label
`"clockwise"`. -/
theorem wheelFreshStep_spec (stepScale stepsPerRotation : ℚ) :
    (handleWheel stepScale stepsPerRotation initialNavState 120).1.value
        = 120 * stepScale
  ∧ (handleWheel stepScale stepsPerRotation initialNavState 120).2.delta
        = 120 * stepScale
  ∧ (handleWheel stepScale stepsPerRotation initialNavState 120).2.direction
        = "clockwise" := by
  refine ⟨?_, ?_, ?_⟩
  · show (0 : ℚ) + 120 * stepScale = 120 * stepScale
    rw [zero_add]
  · rfl
  · show (if (120 : ℚ) > 0 then "clockwise" else "counterclockwise") = "clockwise"
    norm_num

/-! ## IEEE special values and the engine's (lack of) input filtering

`JSNum` models a JavaScript number as either a finite value (`num`),
`NaN`, `+Infinity` or `-Infinity`, with the IEEE semantics of `+`, `*`,
`Math.abs` and `<` that the engine's accumulation code relies on.  The
engine source contains no finiteness check on input deltas, so the
embedding lets us evaluate what actually happens to a non-finite
delta. -/

inductive JSNum where
  | num : ℚ → JSNum
  | nan : JSNum
  | posInf : JSNum
  | negInf : JSNum
deriving DecidableEq, Repr

namespace JSNum

/-- IEEE addition: `NaN` absorbs, opposite infinities give `NaN`. -/
def add : JSNum → JSNum → JSNum
  | num a, num b => num (a + b)
  | nan, _ => nan
  | _, nan => nan
  | posInf, negInf => nan
  | negInf, posInf => nan
  | posInf, _ => posInf
  | _, posInf => posInf
  | negInf, _ => negInf
  | _, negInf => negInf

/-- IEEE multiplication: `NaN` absorbs, `0 * ±∞ = NaN`. -/
def mul : JSNum → JSNum → JSNum
  | num a, num b => num (a * b)
  | nan, _ => nan
  | _, nan => nan
  | posInf, posInf => posInf
  | posInf, negInf => negInf
  | negInf, posInf => negInf
  | negInf, negInf => posInf
  | posInf, num b => if b = 0 then nan else if 0 < b then posInf else negInf
  | num a, posInf => if a = 0 then nan else if 0 < a then posInf else negInf
  | negInf, num b => if b = 0 then nan else if 0 < b then negInf else posInf
  | num a, negInf => if a = 0 then nan else if 0 < a then negInf else posInf

/-- Models `Math.abs`: `NaN` stays `NaN`, infinities become `+Infinity`. -/
def absJ : JSNum → JSNum
  | num a => num |a|
  | nan => nan
  | posInf => posInf
  | negInf => posInf

/-- JavaScript `<`: every comparison involving `NaN` is false. -/
def ltJ : JSNum → JSNum → Bool
  | num a, num b => decide (a < b)
  | nan, _ => false
  | _, nan => false
  | posInf, posInf => false
  | negInf, negInf => false
  | negInf, _ => true
  | _, posInf => true
  | posInf, _ => false
  | _, negInf => false

end JSNum

/-- The engine accumulators over JavaScript numbers. -/
structure JSNavState where
  value : JSNum
  totalDistance : JSNum
  absoluteDistance : JSNum
deriving DecidableEq, Repr

/-- Fresh engine over JavaScript numbers. -/
def initialJSNavState : JSNavState := ⟨.num 0, .num 0, .num 0⟩

/-- Embeds `ScrollNavigator._updateDistance` over JavaScript numbers. -/
def jsUpdateDistance (s : JSNavState) (scrollDelta : JSNum) : JSNavState :=
  { s with totalDistance := s.totalDistance.add scrollDelta,
           absoluteDistance := s.absoluteDistance.add scrollDelta.absJ }

/-- Embeds `ScrollNavigator._handleWheel`, state change only: the wheel path
accumulates `event.deltaY` with no validity check whatsoever. -/
def jsHandleWheelState (stepScale : JSNum) (s : JSNavState) (deltaY : JSNum) :
    JSNavState :=
  let delta := deltaY.mul stepScale
  let s1 := jsUpdateDistance s deltaY
  { s1 with value := s1.value.add delta }

/-- Embeds `ScrollNavigator._handleTouchMove`, state change only: the touch
path drops the event when `Math.abs(scrollDelta) < 0.5` and otherwise
performs the same unchecked accumulation as the wheel path. -/
def jsHandleTouchMoveState (stepScale : JSNum) (s : JSNavState)
    (scrollDelta : JSNum) : JSNavState :=
  if scrollDelta.absJ.ltJ (.num (1/2)) then s
  else jsHandleWheelState stepScale s scrollDelta

/-! ### Proofs about non-finite deltas (claim C2) -/

/-- Counterexample to C2 as stated: a `NaN` wheel delta is not dropped —
it corrupts all three accumulators of a fresh engine, turning
`signedTotal`, `absoluteTotal` and `stepValue` into `NaN`. -/
theorem nanDelta_counterexample :
    (jsHandleWheelState (.num 1) initialJSNavState .nan).totalDistance = .nan
  ∧ (jsHandleWheelState (.num 1) initialJSNavState .nan).absoluteDistance = .nan
  ∧ (jsHandleWheelState (.num 1) initialJSNavState .nan).value = .nan
  ∧ (jsHandleWheelState (.num 1) initialJSNavState .nan).totalDistance
      ≠ initialJSNavState.totalDistance := by
  refine ⟨rfl, rfl, rfl, ?_⟩
  decide

/-- C2 (amended): the engine performs no finiteness filtering — a `NaN`
delta propagates through both the wheel and the touch-move paths into
`signedTotal`, `absoluteTotal` and `stepValue`; the only input that is
silently dropped is a finite touch-move delta with magnitude below the
`0.5` dead-zone, which leaves the state unchanged. -/
theorem nonFiniteDelta_spec (stepScale : JSNum) (s : JSNavState) (d : ℚ)
    (hd : |d| < 1/2) :
    (jsHandleWheelState stepScale s .nan).totalDistance = .nan
  ∧ (jsHandleWheelState stepScale s .nan).absoluteDistance = .nan
  ∧ (jsHandleWheelState stepScale s .nan).value = .nan
  ∧ (jsHandleTouchMoveState stepScale s .nan).totalDistance = .nan
  ∧ jsHandleTouchMoveState stepScale s (.num d) = s := by
  have haddnan : ∀ x : JSNum, x.add .nan = .nan := by
    intro x
    cases x <;> rfl
  have hmulnan : JSNum.mul .nan stepScale = .nan := by cases stepScale <;> rfl
  refine ⟨?_, ?_, ?_, ?_, ?_⟩
  · show s.totalDistance.add .nan = .nan
    exact haddnan _
  · show s.absoluteDistance.add (JSNum.absJ .nan) = .nan
    exact haddnan _
  · show (s.value.add (JSNum.mul .nan stepScale)) = .nan
    rw [hmulnan]
    exact haddnan _
  · show s.totalDistance.add .nan = .nan
    exact haddnan _
  · have hguard : (JSNum.absJ (.num d)).ltJ (.num (1/2)) = true := by
      show decide (|d| < 1/2) = true
      exact decide_eq_true hd
    rw [jsHandleTouchMoveState, if_pos hguard]

/-- Witness for C2 (amended) at a concrete engine: a `NaN` wheel delta
turns `totalDistance` into `NaN`, and a finite touch delta of `1/4`
(below the dead-zone) leaves the fresh state unchanged. -/
theorem nonFiniteDelta_spec_witness :
    (|(1/4 : ℚ)| < 1/2)
  ∧ (jsHandleWheelState (.num 1) initialJSNavState .nan).totalDistance = .nan
  ∧ jsHandleTouchMoveState (.num 1) initialJSNavState (.num (1/4))
      = initialJSNavState := by
  have habs : |(1/4 : ℚ)| < 1/2 := abs_lt.mpr ⟨by norm_num, by norm_num⟩
  have h := nonFiniteDelta_spec (.num 1) initialJSNavState (1/4) habs
  exact ⟨habs, h.1, h.2.2.2.2⟩

/-! ## InfiniteScroll: index wrapping and layer lookups -/

/-- Embeds `InfiniteScroll.getItemForIndex(virtualIndex)` (single-layer
variant, `src/unnamed/part_001` lines 466-472): maps any virtual index
to an item via `((virtualIndex % len) + len) % len`. -/
def getItemForIndex {α : Type} (shuffledItems : List α) (virtualIndex : ℤ) :
    Option α :=
  shuffledItems.get?
    (((virtualIndex.tmod (shuffledItems.length : ℤ)) + (shuffledItems.length : ℤ)).tmod
      (shuffledItems.length : ℤ)).toNat

/-- Embeds `InfiniteScroll.getVideoForIndex(index)` (dual-layer variant,
`src/src/InfiniteScroll.js` lines 149-153): returns `null` for an empty
deck before any modulo is taken. -/
def getVideoForIndex {α : Type} (videoItems : List α) (index : ℤ) : Option α :=
  if videoItems.length = 0 then none
  else videoItems.get?
    (((index.tmod (videoItems.length : ℤ)) + (videoItems.length : ℤ)).tmod
      (videoItems.length : ℤ)).toNat

/-- Embeds `InfiniteScroll.getGenzForIndex(index)`
(`src/src/InfiniteScroll.js` lines 158-162): same guard and wrap for the
foreground deck. -/
def getGenzForIndex {α : Type} (genzItems : List α) (index : ℤ) : Option α :=
  if genzItems.length = 0 then none
  else genzItems.get?
    (((index.tmod (genzItems.length : ℤ)) + (genzItems.length : ℤ)).tmod
      (genzItems.length : ℤ)).toNat

/-- C7: for every integer virtual index and nonzero deck, the item
lookup is periodic with period the deck length. -/
theorem getItemForIndex_periodic {α : Type} (items : List α)
    (h : items.length ≠ 0) (i : ℤ) :
    getItemForIndex items i = getItemForIndex items (i + (items.length : ℤ)) := by
  have hpos : (0 : ℤ) < (items.length : ℤ) := by
    exact_mod_cast Nat.pos_of_ne_zero h
  rw [getItemForIndex, getItemForIndex,
    jsNormalize_eq_emod i hpos, jsNormalize_eq_emod _ hpos, Int.add_emod_self]

/-- Witness for C7: on the three-item deck `[10, 20, 30]`, the lookup at
`-5` coincides with the lookup at `-5 + 3 = -2`. -/
theorem getItemForIndex_periodic_witness :
    (([10, 20, 30] : List ℕ).length ≠ 0)
  ∧ getItemForIndex ([10, 20, 30] : List ℕ) (-5)
      = getItemForIndex ([10, 20, 30] : List ℕ) (-2) := by
  refine ⟨by decide, ?_⟩
  have h := getItemForIndex_periodic ([10, 20, 30] : List ℕ) (by decide) (-5)
  norm_num at h
  exact h

/-- C9: a layer whose deck has zero length answers every lookup with
`null` (the guard fires before the modulo), so the layer renders no
content and raises no error. -/
theorem emptyDeckLookup_spec {α : Type} (videoItems genzItems : List α)
    (hv : videoItems.length = 0) (hg : genzItems.length = 0) (i : ℤ) :
    getVideoForIndex videoItems i = none ∧ getGenzForIndex genzItems i = none := by
  constructor
  · rw [getVideoForIndex, if_pos hv]
  · rw [getGenzForIndex, if_pos hg]

/-- Witness for C9 at the empty deck and two concrete indices. -/
theorem emptyDeckLookup_spec_witness :
    (([] : List ℕ).length = 0)
  ∧ getVideoForIndex ([] : List ℕ) (-7) = none
  ∧ getGenzForIndex ([] : List ℕ) 3 = none := by
  have h1 := emptyDeckLookup_spec ([] : List ℕ) ([] : List ℕ) rfl rfl (-7)
  have h2 := emptyDeckLookup_spec ([] : List ℕ) ([] : List ℕ) rfl rfl 3
  exact ⟨rfl, h1.1, h2.2⟩

/-! ## InfiniteScroll: the memoized gap table (GapTable)

`genzRandomGaps` is a `Map` from normalized foreground index to the
randomized gap; `generateGapPattern` fills indices `0..999` (groups of
2-5 small gaps followed by one big gap) and `getGenzGap` lazily
generates it once, when the map is empty.  The map is modelled as an
association list, and the global `Math.random()` source as a stream
`rand` together with a cursor `randCounter` that generation advances, so
that a hypothetical re-generation really would re-roll the gaps. -/

structure GapState where
  genzGapMin : ℚ
  genzGapMax : ℚ
  genzRandomGaps : List (ℕ × ℚ)
  randCounter : ℕ
deriving DecidableEq, Repr

/-- Inner `for` loop of `generateGapPattern`: writes up to `j` small
gaps (`genzGapMin + Math.random() * 30`) while `index < 1000`.  Returns
the updated index, random cursor and table. -/
def gapSmallLoop (rand : ℕ → ℚ) (gapMin : ℚ) :
    ℕ → ℕ → ℕ → List (ℕ × ℚ) → ℕ × ℕ × List (ℕ × ℚ)
  | 0, index, c, acc => (index, c, acc)
  | j + 1, index, c, acc =>
      if index < 1000 then
        gapSmallLoop rand gapMin j (index + 1) (c + 1)
          (acc ++ [(index, gapMin + rand c * 30)])
      else (index, c, acc)

/-- Outer `while (index < 1000)` loop of `generateGapPattern`: draws a
group size `2 + Math.floor(Math.random() * 4)`, writes that many small
gaps, then one big gap
(`genzGapMin + 400 + Math.random() * (genzGapMax - 400)`).  `fuel`
bounds the number of outer iterations; `1000` always suffices because
every iteration advances `index` by at least one. -/
def gapOuterLoop (rand : ℕ → ℚ) (gapMin gapMax : ℚ) :
    ℕ → ℕ → ℕ → List (ℕ × ℚ) → List (ℕ × ℚ) × ℕ
  | 0, _, c, acc => (acc, c)
  | fuel + 1, index, c, acc =>
      if index < 1000 then
        match gapSmallLoop rand gapMin (2 + (⌊rand c * 4⌋).toNat) index (c + 1) acc with
        | (index', c', acc') =>
            if index' < 1000 then
              gapOuterLoop rand gapMin gapMax fuel (index' + 1) (c' + 1)
                (acc' ++ [(index', gapMin + 400 + rand c' * (gapMax - 400))])
            else (acc', c')
      else (acc, c)

/-- Embeds `InfiniteScroll.generateGapPattern()`: clears the table and refills
indices from `0`, consuming random draws from the current cursor. -/
def generateGapPattern (rand : ℕ → ℚ) (s : GapState) : GapState :=
  match gapOuterLoop rand s.genzGapMin s.genzGapMax 1000 0 s.randCounter [] with
  | (gaps, c) => { s with genzRandomGaps := gaps, randCounter := c }

/-- The value read out of the table for a normalized index: JavaScript's
`this.genzRandomGaps.get(normalizedIndex) || this.genzGapMin` falls back
to `genzGapMin` both for a missing entry and for a (falsy) zero gap. -/
def gapLookupValue (s : GapState) (k : ℕ) : ℚ :=
  match s.genzRandomGaps.lookup k with
  | some g => if g = 0 then s.genzGapMin else g
  | none => s.genzGapMin

/-- Embeds `InfiniteScroll.getGenzGap(index)` (`src/src/InfiniteScroll.js`
lines 370-379): generates the pattern only if the table is empty, then
reads the entry for `((index % 1000) + 1000) % 1000`. -/
def getGenzGap (rand : ℕ → ℚ) (s : GapState) (index : ℤ) : ℚ × GapState :=
  let s' := if s.genzRandomGaps.length = 0 then generateGapPattern rand s else s
  (gapLookupValue s' (((index.tmod 1000) + 1000).tmod 1000).toNat, s')

/-- Runs any sequence of gap reads (the only operations of the stream that
touch the table — renders, position queries and resizes all read gaps
through `getGenzGap`), threaded through the state. -/
def runGapQueries (rand : ℕ → ℚ) (s : GapState) (qs : List ℤ) : GapState :=
  qs.foldl (fun st q => (getGenzGap rand st q).2) s

/-! ### Proofs about the gap table -/

/-- The inner loop only appends to the table. -/
theorem gapSmallLoop_length_ge (rand : ℕ → ℚ) (gapMin : ℚ)
    (j index c : ℕ) (acc : List (ℕ × ℚ)) :
    acc.length ≤ (gapSmallLoop rand gapMin j index c acc).2.2.length := by
  induction j generalizing index c acc with
  | zero => exact le_refl _
  | succ j ih =>
    rw [gapSmallLoop]
    by_cases h : index < 1000
    · rw [if_pos h]
      refine le_trans ?_ (ih (index + 1) (c + 1) (acc ++ [(index, gapMin + rand c * 30)]))
      simp
    · rw [if_neg h]

/-- A nonempty group started below index `1000` writes at least one
entry. -/
theorem gapSmallLoop_grows (rand : ℕ → ℚ) (gapMin : ℚ)
    (j index c : ℕ) (acc : List (ℕ × ℚ)) (hidx : index < 1000) (hj : 1 ≤ j) :
    acc.length + 1 ≤ (gapSmallLoop rand gapMin j index c acc).2.2.length := by
  cases j with
  | zero => omega
  | succ j =>
    rw [gapSmallLoop, if_pos hidx]
    refine le_trans ?_ (gapSmallLoop_length_ge rand gapMin j (index + 1) (c + 1) _)
    simp

/-- The outer loop only appends to the table. -/
theorem gapOuterLoop_length_ge (rand : ℕ → ℚ) (gapMin gapMax : ℚ)
    (fuel index c : ℕ) (acc : List (ℕ × ℚ)) :
    acc.length ≤ (gapOuterLoop rand gapMin gapMax fuel index c acc).1.length := by
  induction fuel generalizing index c acc with
  | zero => exact le_refl _
  | succ fuel ih =>
    rw [gapOuterLoop]
    by_cases h : index < 1000
    · rw [if_pos h]
      rcases hsmall : gapSmallLoop rand gapMin (2 + (⌊rand c * 4⌋).toNat) index (c + 1) acc
        with ⟨index', c', acc'⟩
      have hlen : acc.length ≤ acc'.length := by
        have := gapSmallLoop_length_ge rand gapMin (2 + (⌊rand c * 4⌋).toNat) index (c + 1) acc
        rw [hsmall] at this
        exact this
      dsimp only
      by_cases h' : index' < 1000
      · rw [if_pos h']
        refine le_trans ?_ (ih (index' + 1) (c' + 1) _)
        simp
        omega
      · rw [if_neg h']
        exact hlen
    · rw [if_neg h]

/-- The generated gap pattern is never empty: the very first outer
iteration writes the entry for index `0`. -/
theorem generateGapPattern_ne_nil (rand : ℕ → ℚ) (s : GapState) :
    (generateGapPattern rand s).genzRandomGaps ≠ [] := by
  rw [generateGapPattern]
  rcases houter : gapOuterLoop rand s.genzGapMin s.genzGapMax 1000 0 s.randCounter []
    with ⟨gaps, c⟩
  have hlen : 1 ≤ gaps.length := by
    rw [show (1000 : ℕ) = 999 + 1 from rfl, gapOuterLoop, if_pos (by norm_num)] at houter
    rcases hsmall : gapSmallLoop rand s.genzGapMin
        (2 + (⌊rand s.randCounter * 4⌋).toNat) 0 (s.randCounter + 1) [] with ⟨i', c', a'⟩
    have hgrow : 1 ≤ a'.length := by
      have := gapSmallLoop_grows rand s.genzGapMin
        (2 + (⌊rand s.randCounter * 4⌋).toNat) 0 (s.randCounter + 1) []
        (by norm_num) (by omega)
      rw [hsmall] at this
      simpa using this
    rw [hsmall] at houter
    dsimp only at houter
    by_cases h' : i' < 1000
    · rw [if_pos h'] at houter
      have := gapOuterLoop_length_ge rand s.genzGapMin s.genzGapMax 999 (i' + 1) (c' + 1)
        (a' ++ [(i', s.genzGapMin + 400 + rand c' * (s.genzGapMax - 400))])
      rw [houter] at this
      simp at this
      omega
    · rw [if_neg h'] at houter
      injection houter with h1 h2
      exact h1 ▸ hgrow
  dsimp only
  intro hnil
  rw [hnil] at hlen
  simp at hlen

/-- Once the table is nonempty, a gap read leaves the state untouched. -/
theorem getGenzGap_state_of_ne_nil (rand : ℕ → ℚ) (s : GapState)
    (h : s.genzRandomGaps ≠ []) (i : ℤ) : (getGenzGap rand s i).2 = s := by
  have hlen : ¬ s.genzRandomGaps.length = 0 := by
    simpa [List.length_eq_zero] using h
  show (if s.genzRandomGaps.length = 0 then generateGapPattern rand s else s) = s
  rw [if_neg hlen]

/-- The state returned by any gap read has a nonempty table. -/
theorem getGenzGap_snd_ne_nil (rand : ℕ → ℚ) (s : GapState) (i : ℤ) :
    ((getGenzGap rand s i).2).genzRandomGaps ≠ [] := by
  show (if s.genzRandomGaps.length = 0 then generateGapPattern rand s else s).genzRandomGaps ≠ []
  by_cases h : s.genzRandomGaps.length = 0
  · rw [if_pos h]
    exact generateGapPattern_ne_nil rand s
  · rw [if_neg h]
    simpa [List.length_eq_zero] using h

/-- The value of a gap read is the table entry of the returned state at
the normalized index. -/
theorem getGenzGap_fst (rand : ℕ → ℚ) (s : GapState) (i : ℤ) :
    (getGenzGap rand s i).1
      = gapLookupValue (getGenzGap rand s i).2 (((i.tmod 1000) + 1000).tmod 1000).toNat := rfl

/-- C8: gap reads are stable — the second read of index `i`, after any
interleaving of further gap reads, returns the first read's value (the
pattern is generated at most once), and in the generated state the gap
of `i + 1000` equals the gap of `i` (the pattern period is `1000`). -/
theorem getGenzGap_stable (rand : ℕ → ℚ) (s : GapState) (i : ℤ) (qs : List ℤ) :
    (getGenzGap rand (runGapQueries rand ((getGenzGap rand s i).2) qs) i).1
        = (getGenzGap rand s i).1
  ∧ (getGenzGap rand ((getGenzGap rand s i).2) (i + 1000)).1
        = (getGenzGap rand s i).1 := by
  have hne : ((getGenzGap rand s i).2).genzRandomGaps ≠ [] :=
    getGenzGap_snd_ne_nil rand s i
  have hrun : runGapQueries rand ((getGenzGap rand s i).2) qs = (getGenzGap rand s i).2 := by
    induction qs with
    | nil => rfl
    | cons q qs ih =>
      show runGapQueries rand (getGenzGap rand ((getGenzGap rand s i).2) q).2 qs
          = (getGenzGap rand s i).2
      rw [getGenzGap_state_of_ne_nil rand _ hne q]
      exact ih
  have hnorm : (((i + 1000).tmod 1000) + 1000).tmod 1000 = ((i.tmod 1000) + 1000).tmod 1000 := by
    rw [jsNormalize_eq_emod i (by norm_num), jsNormalize_eq_emod (i + 1000) (by norm_num),
      Int.add_emod_self]
  constructor
  · rw [hrun, getGenzGap_fst, getGenzGap_fst,
      getGenzGap_state_of_ne_nil rand _ hne i]
  · rw [getGenzGap_fst rand ((getGenzGap rand s i).2) (i + 1000), hnorm,
      getGenzGap_state_of_ne_nil rand _ hne, getGenzGap_fst]

end Brainrot
